import Mathlib

/-!
Verification of the solang middle-end (substrate/polkadot target):
shallow embedding of the dispatch generator, the SCALE compact encoder,
the try/catch lowering, and the ABI type registry, with theorems checking
the natural-language specification against the code.
-/

namespace Solang

/-- Types used by the embedded code (subset of `sema::ast::Type`). -/
inductive Ty
  | Uint (bits : Nat)
  | Bytes (n : Nat)
  | Bool
  | DynamicBytes
  | String
  | Value
  deriving DecidableEq

/-- `U32` abbreviation from `sema::ast` (`Type::Uint(32)`). -/
def U32 : Ty := Ty.Uint 32

/-- Builtin intrinsics appearing in the embedded code. -/
inductive BuiltinKind
  | ArrayLength
  | ReadFromBuffer
  deriving DecidableEq

/-- Codegen expression tree (subset of `codegen::Expression` used by the
embedded functions).  Number literals are nonnegative in every embedded
call site, so they carry a `Nat`. -/
inductive Expression
  | NumberLiteral (ty : Ty) (val : Nat)
  | Variable (ty : Ty) (varNo : Nat)
  | FunctionArg (ty : Ty) (argNo : Nat)
  | Builtin (tys : List Ty) (kind : BuiltinKind) (args : List Expression)
  | Less (signed : Bool) (left right : Expression)
  | More (signed : Bool) (left right : Expression)
  | UnsignedMore (left right : Expression)
  | Equal (left right : Expression)
  | Multiply (ty : Ty) (overflowing : Bool) (left right : Expression)
  | BitwiseOr (ty : Ty) (left right : Expression)
  | Add (ty : Ty) (overflowing : Bool) (left right : Expression)
  | AllocDynamicBytes (ty : Ty) (size : Nat)
  | ReturnData

/-- Runtime return codes (subset of `codegen::cfg::ReturnCode`). -/
inductive ReturnCode
  | FunctionSelectorInvalid
  deriving DecidableEq

/-- Function kinds (subset of `solang_parser::pt::FunctionTy`). -/
inductive FunctionTy
  | Function
  | Constructor
  | Fallback
  | Receive
  | Modifier
  deriving DecidableEq

/-- CFG instructions (subset of `codegen::cfg::Instr` used by the embedded
functions).  `Call` keeps only the static cfg number and argument list of
`InternalCallTy::Static`. -/
inductive Instr
  | Set (res : Nat) (expr : Expression)
  | Branch (block : Nat)
  | BranchCond (cond : Expression) (true_block false_block : Nat)
  | Switch (cond : Expression) (cases : List (Expression × Nat)) (default : Nat)
  | Call (res : List Nat) (cfg_no : Nat) (args : List Expression)
  | ReturnCode (code : ReturnCode)
  | AssertFailure (encoded_args : Option Expression)
  | WriteBuffer (buf : Expression) (offset : Expression) (value : Expression)
  | AbiDecode (res : List Nat) (tys : List Ty) (data : Expression)

/-- A terminator per the spec: branch, conditional branch, switch,
return-code, or assert-failure trap. -/
def Instr.is_terminator : Instr → Bool
  | .Branch _ => true
  | .BranchCond _ _ _ => true
  | .Switch _ _ _ => true
  | .ReturnCode _ => true
  | .AssertFailure _ => true
  | _ => false

/-- A basic block: a name and an ordered instruction sequence. -/
structure BasicBlock where
  name : String
  instrs : List Instr

/-- Modelled from the spec: the codegen `Vartable` (`src/codegen/vartable.rs`
is not part of the provided sources).  It owns the next-id counter and a
stack of dirty trackers; ids are handed out strictly increasing. -/
structure Vartable where
  next_id : Nat
  dirty_stack : List (List Nat)

def Vartable.new (next_id : Nat) : Vartable := ⟨next_id, []⟩

/-- Allocate a fresh named temporary: returns the new id. -/
def Vartable.temp_name (vt : Vartable) (_nm : String) (_ty : Ty) : Nat × Vartable :=
  (vt.next_id, { vt with next_id := vt.next_id + 1 })

/-- Allocate a fresh anonymous temporary: returns the new id. -/
def Vartable.temp_anonymous (vt : Vartable) (_ty : Ty) : Nat × Vartable :=
  (vt.next_id, { vt with next_id := vt.next_id + 1 })

/-- Push a fresh dirty tracker (spec 4.1: push tracker, run divergent code,
pop tracker, attach set to merge block). -/
def Vartable.new_dirty_tracker (vt : Vartable) : Vartable :=
  { vt with dirty_stack := [] :: vt.dirty_stack }

/-- Mark a variable written in every active tracker. -/
def Vartable.set_dirty (vt : Vartable) (pos : Nat) : Vartable :=
  { vt with dirty_stack := vt.dirty_stack.map (fun tr => if pos ∈ tr then tr else pos :: tr) }

/-- Pop the innermost dirty tracker and return its contents. -/
def Vartable.pop_dirty_tracker (vt : Vartable) : List Nat × Vartable :=
  match vt.dirty_stack with
  | [] => ([], vt)
  | tr :: rest => (tr, { vt with dirty_stack := rest })

/-- Modelled from the spec: the codegen `ControlFlowGraph`
(`src/codegen/cfg.rs` is not part of the provided sources).  Block 0 is the
unique entry; `add` appends to the current block; `new_basic_block` does not
change the current block. -/
structure CFG where
  name : String
  blocks : List BasicBlock
  current : Nat
  phis : List (Nat × List Nat)

def CFG.new (name : String) : CFG :=
  { name, blocks := [⟨"entry", []⟩], current := 0, phis := [] }

def CFG.new_basic_block (cfg : CFG) (name : String) : Nat × CFG :=
  (cfg.blocks.length, { cfg with blocks := cfg.blocks ++ [⟨name, []⟩] })

def CFG.set_basic_block (cfg : CFG) (block : Nat) : CFG :=
  { cfg with current := block }

/-- Append an instruction to the current block; a `Set` marks its result
dirty, as the spec's dirty trackers record written variables. -/
def CFG.add (cfg : CFG) (vt : Vartable) (ins : Instr) : CFG × Vartable :=
  let blocks := cfg.blocks.mapIdx fun i bb =>
    if i = cfg.current then { bb with instrs := bb.instrs ++ [ins] } else bb
  let vt := match ins with
    | .Set res _ => vt.set_dirty res
    | _ => vt
  ({ cfg with blocks }, vt)

def CFG.set_phis (cfg : CFG) (block : Nat) (set : List Nat) : CFG :=
  { cfg with phis := cfg.phis ++ [(block, set)] }

/-- The pair of mutable lowering state (`vartab`, `cfg`) threaded through
every embedded function. -/
structure Builder where
  vartab : Vartable
  cfg : CFG

def Builder.add (st : Builder) (ins : Instr) : Builder :=
  let (cfg, vt) := st.cfg.add st.vartab ins
  { vartab := vt, cfg }

def Builder.new_basic_block (st : Builder) (name : String) : Nat × Builder :=
  let (n, cfg) := st.cfg.new_basic_block name
  (n, { st with cfg })

def Builder.set_basic_block (st : Builder) (block : Nat) : Builder :=
  { st with cfg := st.cfg.set_basic_block block }

def Builder.temp_name (st : Builder) (nm : String) (ty : Ty) : Nat × Builder :=
  let (n, vt) := st.vartab.temp_name nm ty
  (n, { st with vartab := vt })

def Builder.temp_anonymous (st : Builder) (ty : Ty) : Nat × Builder :=
  let (n, vt) := st.vartab.temp_anonymous ty
  (n, { st with vartab := vt })

/-! ## Dispatch generator (`src/codegen/dispatch/substrate.rs`) -/

/-- The target metadata of one lowered function CFG that the dispatcher
reads (`ControlFlowGraph` fields `public`, `ty`, `selector`, `nonpayable`).
The selector is a little-endian byte list. -/
structure MsgCfg where
  public : Bool
  ty : FunctionTy
  selector : List Nat
  nonpayable : Bool

/-- The namespace fields read by the dispatcher: `next_id`,
`value_length`, and `target.selector_length()`. -/
structure NsInfo where
  next_id : Nat
  value_length : Nat
  selector_length : Nat

/-- `BigInt::from_bytes_le(Sign::Plus, bytes)`. -/
def bytes_le (bs : List Nat) : Nat :=
  bs.foldr (fun b acc => b + 256 * acc) 0

/-- The `Dispatch` struct of `dispatch/substrate.rs`. -/
structure Dispatch where
  fail_bb : Nat
  input : Nat
  value : Nat
  st : Builder

def Dispatch.add (d : Dispatch) (ins : Instr) : Dispatch :=
  { d with st := d.st.add ins }

/-- `Dispatch::new`: reads input length and transferred value into fresh
temporaries in the entry block, then creates the shared assert-failure
block and leaves it as the current block (exactly as the source does). -/
def Dispatch.new (ns : NsInfo) : Dispatch :=
  let vartab := Vartable.new ns.next_id
  let cfg := CFG.new "solang_dispatch"
  let st : Builder := { vartab, cfg }
  let input_expr := Expression.FunctionArg Ty.DynamicBytes 0
  let (input, st) := st.temp_name "input_len" (Ty.Uint 32)
  let expr := Expression.Builtin [Ty.Uint 32] BuiltinKind.ArrayLength [input_expr]
  let st := st.add (Instr.Set input expr)
  let input_epxr := Expression.FunctionArg Ty.DynamicBytes 1
  let (value, st) := st.temp_name "value" (Ty.Uint ns.value_length)
  let st := st.add (Instr.Set value input_epxr)
  let (fail_bb, st) := st.new_basic_block "assert_failure"
  let st := st.set_basic_block fail_bb
  let st := st.add (Instr.AssertFailure none)
  { fail_bb, input, value, st }

/-- `Dispatch::selector_invalid`. -/
def Dispatch.selector_invalid (d : Dispatch) : Dispatch :=
  d.add (Instr.ReturnCode ReturnCode.FunctionSelectorInvalid)

/-- `Dispatch::abort_if_value_transfer`: inserts the payability guard for
message `msg_no` if it is nonpayable. -/
def Dispatch.abort_if_value_transfer (all_cfg : List MsgCfg) (ns : NsInfo)
    (d : Dispatch) (msg_no : Nat) : Dispatch :=
  if !((all_cfg.getD msg_no ⟨false, FunctionTy.Modifier, [], false⟩).nonpayable) then
    d
  else
    let value_ty := Ty.Uint ns.value_length
    let (false_block, st) := d.st.new_basic_block "no_value"
    let d := { d with st }
    let d := d.add (Instr.BranchCond
      (Expression.More false
        (Expression.NumberLiteral value_ty 0)
        (Expression.Variable value_ty d.value))
      d.fail_bb false_block)
    { d with st := d.st.set_basic_block false_block }

/-- `Dispatch::dispatch_case`: creates the case block, makes it current and
inserts the payability guard; the body is left as `// TODO` in the source. -/
def Dispatch.dispatch_case (all_cfg : List MsgCfg) (ns : NsInfo)
    (d : Dispatch) (msg_no : Nat) : Nat × Dispatch :=
  let (case, st) := d.st.new_basic_block ("dispatch_case_" ++ toString msg_no)
  let d := { d with st := st.set_basic_block case }
  let d := d.abort_if_value_transfer all_cfg ns msg_no
  (case, d)

/-- `Dispatch::fallback_or_receive`. -/
def Dispatch.fallback_or_receive (all_cfg : List MsgCfg) (ns : NsInfo)
    (d : Dispatch) : Dispatch :=
  let fb_recv : Option Nat × Option Nat :=
    (all_cfg.enum).foldl
      (fun acc p =>
        match (p.2).ty with
        | FunctionTy.Fallback => if (p.2).public then (some p.1, acc.2) else acc
        | FunctionTy.Receive => if (p.2).public then (acc.1, some p.1) else acc
        | _ => acc)
      (none, none)
  if fb_recv.1.isNone && fb_recv.2.isNone then
    d.selector_invalid
  else
    let value_ty := Ty.Uint ns.value_length
    let (fallback_block, st) := d.st.new_basic_block "fallback"
    let (receive_block, st) := st.new_basic_block "receive"
    let d := { d with st }
    let d := d.add (Instr.BranchCond
      (Expression.More false
        (Expression.NumberLiteral value_ty 0)
        (Expression.Variable value_ty d.value))
      receive_block fallback_block)
    let d := { d with st := d.st.set_basic_block fallback_block }
    let d := match fb_recv.1 with
      | some cfg_no => d.add (Instr.Call [] cfg_no [])
      | none => d.selector_invalid
    let d := { d with st := d.st.set_basic_block receive_block }
    match fb_recv.2 with
    | some cfg_no => d.add (Instr.Call [] cfg_no [])
    | none => d.selector_invalid

/-- `Dispatch::build`: the length check, the selector switch over all
public functions/constructors, and the fallback-or-receive handling. -/
def Dispatch.build (all_cfg : List MsgCfg) (ns : NsInfo) (d : Dispatch) : CFG :=
  let (default, st) := d.st.new_basic_block "fb_or_recv"
  let (start_dispatch_block, st) := st.new_basic_block "start_dispatch"
  let d := { d with st }
  let selector_len := ns.selector_length
  let cond := Expression.Less false
    (Expression.NumberLiteral (Ty.Uint 32) selector_len)
    (Expression.Variable (Ty.Uint 32) d.input)
  let d := d.add (Instr.BranchCond cond default start_dispatch_block)
  let d := { d with st := d.st.set_basic_block start_dispatch_block }
  let selector_ty := Ty.Uint (8 * ns.selector_length)
  let cond := Expression.Builtin [selector_ty] BuiltinKind.ReadFromBuffer
    [Expression.FunctionArg Ty.DynamicBytes 0,
     Expression.NumberLiteral selector_ty 0]
  let (cases, d) :=
    ((all_cfg.enum).filter fun p =>
        (p.2).public &&
          ((p.2).ty == FunctionTy.Function || (p.2).ty == FunctionTy.Constructor)).foldl
      (fun (acc : List (Expression × Nat) × Dispatch) p =>
        let selector := bytes_le (p.2).selector
        let case := Expression.NumberLiteral selector_ty selector
        let (blk, d) := Dispatch.dispatch_case all_cfg ns acc.2 p.1
        (acc.1 ++ [(case, blk)], d))
      ([], d)
  let d := d.add (Instr.Switch cond cases default)
  let d := { d with st := d.st.set_basic_block default }
  let d := d.fallback_or_receive all_cfg ns
  d.st.cfg

/-- `function_dispatch`: build the dispatcher CFG for a contract. -/
def function_dispatch (all_cfg : List MsgCfg) (ns : NsInfo) : CFG :=
  (Dispatch.new ns).build all_cfg ns

/-! ## Semantics of the generated CFG

Modelled from the spec: expressions are pure and evaluated before the
instruction that consumes them; every reachable block must end in exactly
one terminator.  The evaluator gives runtime meaning to the expression
shapes the embedded code emits; machine integers wrap at the type width. -/

/-- The runtime call context: length of the input buffer (function arg 0),
the transferred value (function arg 1), and the selector word read from
byte offset 0 of the input buffer. -/
structure Env where
  input_len : Nat
  value : Nat
  selector_word : Nat

/-- Bit width used for wrapping arithmetic of a machine-int type. -/
def Ty.bits : Ty → Nat
  | Ty.Uint w => w
  | Ty.Bytes n => 8 * n
  | _ => 32

/-- Variable store: innermost binding first. -/
def Store := List (Nat × Nat)

def Store.lookup : Store → Nat → Option Nat
  | [], _ => none
  | (k, v) :: rest, n => if k = n then some v else Store.lookup rest n

/-- Evaluate an expression; booleans are 0/1.  Unhandled shapes (never
reached in the runs below) evaluate to `none`. -/
def evalExpr (env : Env) (store : Store) : Expression → Option Nat
  | Expression.NumberLiteral _ v => some v
  | Expression.Variable _ n => store.lookup n
  | Expression.FunctionArg _ 1 => some env.value
  | Expression.Builtin _ BuiltinKind.ArrayLength [Expression.FunctionArg _ 0] =>
      some env.input_len
  | Expression.Builtin _ BuiltinKind.ReadFromBuffer
      [Expression.FunctionArg _ 0, Expression.NumberLiteral _ 0] =>
      some env.selector_word
  | Expression.Builtin _ BuiltinKind.ReadFromBuffer
      [Expression.Variable _ n, Expression.NumberLiteral _ 0] =>
      (store.lookup n).map (fun _ => env.selector_word)
  | Expression.Less _ l r => do
      let a ← evalExpr env store l
      let b ← evalExpr env store r
      some (if a < b then 1 else 0)
  | Expression.More _ l r => do
      let a ← evalExpr env store l
      let b ← evalExpr env store r
      some (if b < a then 1 else 0)
  | Expression.UnsignedMore l r => do
      let a ← evalExpr env store l
      let b ← evalExpr env store r
      some (if b < a then 1 else 0)
  | Expression.Equal l r => do
      let a ← evalExpr env store l
      let b ← evalExpr env store r
      some (if a = b then 1 else 0)
  | Expression.Multiply ty _ l r => do
      let a ← evalExpr env store l
      let b ← evalExpr env store r
      some (a * b % 2 ^ ty.bits)
  | Expression.BitwiseOr _ l r => do
      let a ← evalExpr env store l
      let b ← evalExpr env store r
      some (a ||| b)
  | Expression.Add ty _ l r => do
      let a ← evalExpr env store l
      let b ← evalExpr env store r
      some ((a + b) % 2 ^ ty.bits)
  | _ => none

/-- Where a run of the generated CFG ended. -/
inductive Outcome
  | assert_fail (payload_present : Bool)
  | ret_code (code : ReturnCode)
  | stuck (block : Nat)
  | fuel_out
  | eval_err
  deriving DecidableEq

/-- Result of a run: final outcome, final store, internal calls made (cfg
numbers, in order), and buffer writes made (evaluated values, in order). -/
structure RunResult where
  outcome : Outcome
  store : Store
  calls : List Nat
  writes : List Nat

/-- Execute instructions of the generated CFG, spending one fuel unit per
instruction.  `stuck b` means block `b` ran out of instructions without a
terminator — the silent fallthrough the spec rules out. -/
def exec (cfg : CFG) (env : Env) :
    Nat → Nat → List Instr → Store → List Nat → List Nat → RunResult
  | 0, _, _, store, calls, writes => ⟨Outcome.fuel_out, store, calls, writes⟩
  | _ + 1, b, [], store, calls, writes => ⟨Outcome.stuck b, store, calls, writes⟩
  | fuel + 1, b, ins :: rest, store, calls, writes =>
    match ins with
    | Instr.Set res e =>
      match evalExpr env store e with
      | some v => exec cfg env fuel b rest ((res, v) :: store) calls writes
      | none => ⟨Outcome.eval_err, store, calls, writes⟩
    | Instr.Branch blk =>
      exec cfg env fuel blk (cfg.blocks.getD blk ⟨"", []⟩).instrs store calls writes
    | Instr.BranchCond c t f =>
      match evalExpr env store c with
      | some v =>
        let blk := if v ≠ 0 then t else f
        exec cfg env fuel blk (cfg.blocks.getD blk ⟨"", []⟩).instrs store calls writes
      | none => ⟨Outcome.eval_err, store, calls, writes⟩
    | Instr.Switch c cases dflt =>
      match evalExpr env store c with
      | some v =>
        let blk := match cases.find? (fun p => evalExpr env store p.1 == some v) with
          | some p => p.2
          | none => dflt
        exec cfg env fuel blk (cfg.blocks.getD blk ⟨"", []⟩).instrs store calls writes
      | none => ⟨Outcome.eval_err, store, calls, writes⟩
    | Instr.Call _ cfg_no _ =>
      exec cfg env fuel b rest store (calls ++ [cfg_no]) writes
    | Instr.ReturnCode code => ⟨Outcome.ret_code code, store, calls, writes⟩
    | Instr.AssertFailure p => ⟨Outcome.assert_fail p.isSome, store, calls, writes⟩
    | Instr.WriteBuffer _ _ value =>
      match evalExpr env store value with
      | some v => exec cfg env fuel b rest store calls (writes ++ [v])
      | none => ⟨Outcome.eval_err, store, calls, writes⟩
    | Instr.AbiDecode _ _ _ => exec cfg env fuel b rest store calls writes

/-- Run the CFG starting at block `b` with an initial store. -/
def runFrom (cfg : CFG) (env : Env) (fuel : Nat) (b : Nat) (store : Store) : RunResult :=
  exec cfg env fuel b (cfg.blocks.getD b ⟨"", []⟩).instrs store [] []

/-! ## SCALE compact encoding (`src/codegen/encoding/scale_encoding.rs`) -/

/-- `encode_compact`: emits the `small`/`medium`/`medium_or_big`/`big`/
`done`/`fail`/`prepare` decision tree over the runtime value and returns
the width expression (the phi variable merged at `done`). -/
def encode_compact (expr : Expression) (buffer : Option Expression)
    (offset : Option Expression) (st : Builder) : Expression × Builder :=
  let (small, st) := st.new_basic_block "small"
  let (medium, st) := st.new_basic_block "medium"
  let (medium_or_big, st) := st.new_basic_block "medium_or_big"
  let (big, st) := st.new_basic_block "big"
  let (done, st) := st.new_basic_block "done"
  let (fail, st) := st.new_basic_block "fail"
  let (prepare, st) := st.new_basic_block "prepare"
  let compare := Expression.UnsignedMore expr (Expression.NumberLiteral U32 0x40000000)
  let st := st.add (Instr.BranchCond compare fail prepare)
  let st := st.set_basic_block fail
  let st := st.add (Instr.AssertFailure none)
  let st := st.set_basic_block prepare
  let compare := Expression.UnsignedMore expr (Expression.NumberLiteral U32 0x40)
  let st := st.add (Instr.BranchCond compare medium_or_big small)
  let st := st.set_basic_block medium_or_big
  let compare := Expression.UnsignedMore expr (Expression.NumberLiteral U32 0x4000)
  let st := st.add (Instr.BranchCond compare big medium)
  let st := { st with vartab := st.vartab.new_dirty_tracker }
  let (size_variable, st) := st.temp_anonymous U32
  let four := Expression.NumberLiteral U32 4
  let mul := Expression.Multiply U32 false expr four
  let st := st.set_basic_block small
  let st := match buffer, offset with
    | some buffer, some offset => st.add (Instr.WriteBuffer buffer offset mul)
    | _, _ => st
  let st := st.add (Instr.Set size_variable (Expression.NumberLiteral U32 1))
  let st := st.add (Instr.Branch done)
  let st := st.set_basic_block medium
  let st := match buffer, offset with
    | some buffer, some offset =>
      let mul2 := Expression.BitwiseOr U32 mul (Expression.NumberLiteral U32 1)
      st.add (Instr.WriteBuffer buffer offset mul2)
    | _, _ => st
  let st := st.add (Instr.Set size_variable (Expression.NumberLiteral U32 2))
  let st := st.add (Instr.Branch done)
  let st := st.set_basic_block big
  let st := match buffer, offset with
    | some buffer, some offset =>
      let mul2 := Expression.BitwiseOr U32 mul (Expression.NumberLiteral U32 2)
      st.add (Instr.WriteBuffer buffer offset mul2)
    | _, _ => st
  let st := st.add (Instr.Set size_variable (Expression.NumberLiteral U32 4))
  let st := st.add (Instr.Branch done)
  let st := st.set_basic_block done
  let (tracker, vt) := st.vartab.pop_dirty_tracker
  let st := { st with vartab := vt, cfg := st.cfg.set_phis done tracker }
  (Expression.Variable U32 size_variable, st)

/-- The `ScaleEncoding` strategy struct. -/
structure ScaleEncoding where
  packed_encoder : Bool

def ScaleEncoding.new (packed : Bool) : ScaleEncoding := ⟨packed⟩

def ScaleEncoding.is_packed (enc : ScaleEncoding) : Bool := enc.packed_encoder

/-- `ScaleEncoding::size_width`. -/
def ScaleEncoding.size_width (_enc : ScaleEncoding) (size : Expression)
    (st : Builder) : Expression × Builder :=
  encode_compact size none none st

/-- `ScaleEncoding::encode_size`. -/
def ScaleEncoding.encode_size (_enc : ScaleEncoding) (expr buffer offset : Expression)
    (st : Builder) : Expression × Builder :=
  encode_compact expr (some buffer) (some offset) st

/-- One round of `abi_decode`'s allocation loop: a fresh temporary for the
next input type, plus its result-variable expression. -/
def decode_alloc_step (acc : Builder × List Nat × List Expression) (item : Ty) :
    Builder × List Nat × List Expression :=
  let (var_no, st) := acc.1.temp_anonymous item
  (st, acc.2.1 ++ [var_no], acc.2.2 ++ [Expression.Variable item var_no])

/-- `ScaleEncoding::abi_decode`: asserts the codec is not packed, then
allocates one fresh temporary per input type and emits a single
`AbiDecode` instruction.  The `assert!` is modelled as `Except.error`,
returned before any state is touched. -/
def ScaleEncoding.abi_decode (enc : ScaleEncoding) (buffer : Expression)
    (types : List Ty) (st : Builder) (_buffer_size : Option Expression) :
    Except Unit (List Expression × Builder) :=
  if enc.packed_encoder then Except.error () else
  let acc := types.foldl decode_alloc_step (st, [], [])
  let st := acc.1.add (Instr.AbiDecode acc.2.1 types buffer)
  Except.ok (acc.2.2, st)

/-! ## Try/catch lowering (`src/codegen/statements/try_catch.rs`) -/

/-- Modelled from the spec: `ERROR_SELECTOR`, the 4-byte tag of a
string-carrying `Error(string)` revert (`codegen/revert.rs` is not among
the provided sources; the value is the standard Solidity one). -/
def ERROR_SELECTOR : Nat := 0x08c379a0

/-- Modelled from the spec: `PANIC_SELECTOR`, the 4-byte tag of a numeric
`Panic(uint256)` revert (`codegen/revert.rs` is not among the provided
sources; the value is the standard Solidity one). -/
def PANIC_SELECTOR : Nat := 0x4e487b71

/-- Modelled from the spec: a statement of a clause body, carried as the
instructions its lowering appends plus its reachability flag (`statement`
and `Statement::reachable` live outside the provided sources). -/
structure Stmt where
  instrs : List Instr
  reachable : Bool

/-- Lower one body statement: append its instructions to the current block. -/
def stmt_emit (st : Builder) (s : Stmt) : Builder :=
  s.instrs.foldl Builder.add st

/-- A catch clause: optional bound-variable position, optional parameter
(type), and the body statements. -/
structure CatchClause where
  param_pos : Option Nat
  param : Option Ty
  stmt : List Stmt

/-- The `TryCatch` fields consumed by `insert_catch_clauses`. -/
structure TryCatchM where
  errors : List CatchClause
  catch_all : Option CatchClause

/-- Result of a lowering step: completed, aborted on an internal invariant
violation (an `unwrap`/`unreachable!` panic), or out of fuel. -/
inductive LowerResult
  | ok (st : Builder)
  | panic
  | fuel_out

/-- `insert_catchall_clause_code_block` (lines 554-604): binds the raw
error buffer to the catch-all's variable, if any, lowers its body and
branches to `finally` when reachable.  The source unconditionally unwraps
`try_stmt.catch_all`, so a missing catch-all aborts. -/
def insert_catchall_clause_code_block (tc : TryCatchM) (finally_block : Nat)
    (error_data_buf : Expression) (st : Builder) : LowerResult :=
  match tc.catch_all with
  | none => LowerResult.panic
  | some ca =>
    let st := match ca.param_pos with
      | some res => st.add (Instr.Set res error_data_buf)
      | none => st
    let acc := ca.stmt.foldl
      (fun (acc : Bool × Builder) s => (s.reachable, stmt_emit acc.2 s)) (true, st)
    if acc.1 then LowerResult.ok (acc.2.add (Instr.Branch finally_block))
    else LowerResult.ok acc.2

/-- Output of the clause-emission loop of `insert_catch_clauses`. -/
inductive LoopOut
  | done (next_clause : Option Nat) (st : Builder)
  | panic
  | fuel_out

/-- The `while let Some((n, clause)) = try_stmt.errors.iter().enumerate().next()`
loop of `insert_catch_clauses` (lines 447-528).  Exactly as in the source,
the iterator is rebuilt every iteration, so `(n, clause)` is always the
first clause; `next_clause.unwrap()` aborts when `next_clause` is `None`. -/
def catch_clause_loop (tc : TryCatchM) (no_match_err_id finally_block : Nat)
    (buffer : Expression) :
    Nat → Option Nat → Builder → LoopOut
  | 0, _, _ => LoopOut.fuel_out
  | fuel + 1, next_clause, st =>
    match tc.errors.enum.head? with
    | none => LoopOut.done next_clause st
    | some (n, clause) =>
      match next_clause with
      | none => LoopOut.panic
      | some blk =>
        let st := st.set_basic_block blk
        let (next_clause2, st) :=
          match tc.errors.get? (n + 1) with
          | some _ =>
            let (b, st) := st.new_basic_block ("catch_error_" ++ toString (n + 1))
            (some b, st)
          | none => ((none : Option Nat), st)
        match clause.param with
        | none => LoopOut.panic
        | some param_ty =>
          let (error_var, st) :=
            match clause.param_pos with
            | some p => (p, st)
            | none => st.temp_anonymous param_ty
          match (match param_ty with
                 | Ty.String => some ERROR_SELECTOR
                 | Ty.Uint 256 => some PANIC_SELECTOR
                 | _ => none) with
          | none => LoopOut.panic
          | some tag =>
            let err_id := Expression.NumberLiteral (Ty.Bytes 4) tag
            let offset := Expression.NumberLiteral (Ty.Uint 32) 0
            let err_selector :=
              Expression.Builtin [Ty.Bytes 4] BuiltinKind.ReadFromBuffer [buffer, offset]
            let cond := Expression.Equal err_selector err_id
            let (match_err_id, st) := st.new_basic_block "match_err_id"
            let st := st.add (Instr.BranchCond cond match_err_id
              (next_clause2.getD no_match_err_id))
            let st := st.set_basic_block match_err_id
            let tys := [Ty.Bytes 4, param_ty]
            match (ScaleEncoding.new false).abi_decode buffer tys st none with
            | Except.error _ => LoopOut.panic
            | Except.ok (decoded, st) =>
              let st := st.add (Instr.Set error_var
                (decoded.getD 1 (Expression.NumberLiteral (Ty.Uint 32) 0)))
              let acc := clause.stmt.foldl
                (fun (acc : Bool × Builder) s => (s.reachable, stmt_emit acc.2 s)) (true, st)
              let st := if acc.1 then acc.2.add (Instr.Branch finally_block) else acc.2
              catch_clause_loop tc no_match_err_id finally_block buffer fuel next_clause2 st

/-- `insert_catch_clauses` (lines 369-551): dispatch over the error
selector.  With no declared error clauses, go straight to the catch-all;
otherwise check `len(error data) > 4`, run the clause loop, and finish
with the `no_match` block — re-raising the original buffer if there is no
catch-all.  `fuel` bounds the clause loop's iterations. -/
def insert_catch_clauses (tc : TryCatchM) (catch_block finally_block : Nat)
    (error_ret_data_var : Nat) (fuel : Nat) (st : Builder) : LowerResult :=
  let st := st.set_basic_block catch_block
  let buffer := Expression.Variable Ty.DynamicBytes error_ret_data_var
  if tc.errors.isEmpty then
    insert_catchall_clause_code_block tc finally_block buffer st
  else
    let (no_match_err_id, st) := st.new_basic_block "no_match_err_id"
    let ret_data_len :=
      Expression.Builtin [Ty.Uint 32] BuiltinKind.ArrayLength [buffer]
    let (catch_error_0, st) := st.new_basic_block "catch_error_0"
    let next_clause : Option Nat := some catch_error_0
    let selector_data_len := Expression.NumberLiteral (Ty.Uint 32) 4
    let cond_enough_data := Expression.More false ret_data_len selector_data_len
    let st := st.add (Instr.BranchCond cond_enough_data catch_error_0 no_match_err_id)
    match catch_clause_loop tc no_match_err_id finally_block buffer fuel next_clause st with
    | LoopOut.panic => LowerResult.panic
    | LoopOut.fuel_out => LowerResult.fuel_out
    | LoopOut.done _ st =>
      let st := st.set_basic_block no_match_err_id
      match tc.catch_all with
      | none => LowerResult.ok (st.add (Instr.AssertFailure (some buffer)))
      | some _ => insert_catchall_clause_code_block tc finally_block buffer st

/-- The phi-set pruning for the `finally` block (`try_catch`, lines
87-101): pop the dirty tracker and remove the catch-all's and every error
clause's bound-parameter position before recording the set. -/
def finally_phi_set (tc : TryCatchM) (popped : Finset ℕ) : Finset ℕ :=
  let set := match tc.catch_all.bind CatchClause.param_pos with
    | some pos => popped.erase pos
    | none => popped
  tc.errors.foldl
    (fun s clause =>
      match clause.param_pos with
      | some pos => s.erase pos
      | none => s)
    set

/-! ## ABI type registry (`src/abi/substrate.rs`) -/

/-- Wire-level type descriptors (the `Type` enum of `abi/substrate.rs`);
structural equality is the derived one, as in the source's
`#[derive(PartialEq)]`.  Struct fields are `(optional name, type index)`
pairs; enum variants are `(name, discriminant)` pairs. -/
inductive AbiTy
  | BuiltinTy (primitive : String)
  | BuiltinArray (len : Nat) (ty : Nat)
  | BuiltinSequence (ty : Nat)
  | StructTy (path : List String) (fields : List (Option String × Nat))
  | EnumTy (path : List String) (variants : List (String × Nat))
  deriving DecidableEq

/-- `Abi::register_ty`: add a type to the list unless an equal descriptor
is already present; the registry is accessed by number and the first entry
is 1, not 0.  Returns the entry's number and the updated list. -/
def register_ty (types : List AbiTy) (ty : AbiTy) : Nat × List AbiTy :=
  match types.findIdx? (fun t => t = ty) with
  | some i => (i + 1, types)
  | none =>
    let types := types ++ [ty]
    (types.length, types)

/-! ## Concrete inputs used by the theorems -/

/-- Namespace data of a representative polkadot-style target: 4-byte
selectors, 16-byte transferred-value width, fresh ids from 0.  With it the
dispatcher's `input_len` temporary gets id 0 and `value` gets id 1. -/
def nsEx : NsInfo := { next_id := 0, value_length := 16, selector_length := 4 }

/-- A single public, nonpayable function with selector bytes
`33 33 33 33` (little-endian word `0x33333333`). -/
def msgNonpayable : MsgCfg :=
  { public := true, ty := FunctionTy.Function
    selector := [0x33, 0x33, 0x33, 0x33], nonpayable := true }

/-- Dispatch CFG of a contract whose only function is `msgNonpayable`. -/
def dispatchNonpayable : CFG := function_dispatch [msgNonpayable] nsEx

/-- A public fallback handler (cfg number 0 in `dispatchFbRecv`). -/
def fbCfg : MsgCfg :=
  { public := true, ty := FunctionTy.Fallback, selector := [], nonpayable := false }

/-- A public receive handler (cfg number 1 in `dispatchFbRecv`). -/
def recvCfg : MsgCfg :=
  { public := true, ty := FunctionTy.Receive, selector := [], nonpayable := false }

/-- Dispatch CFG of a contract declaring both fallback and receive. -/
def dispatchFbRecv : CFG := function_dispatch [fbCfg, recvCfg] nsEx

/-- Dispatch CFG of a contract with no public functions at all. -/
def dispatchEmpty : CFG := function_dispatch [] nsEx

/-- The payability guard condition the dispatcher emits (`0 > value`,
with `value` in temporary 1). -/
def guardCond : Expression :=
  Expression.More false
    (Expression.NumberLiteral (Ty.Uint 16) 0)
    (Expression.Variable (Ty.Uint 16) 1)

/-- The input-length check the dispatcher emits
(`selector_length < input_len`, with `input_len` in temporary 0). -/
def lengthCond : Expression :=
  Expression.Less false
    (Expression.NumberLiteral (Ty.Uint 32) 4)
    (Expression.Variable (Ty.Uint 32) 0)

/-- Placeholder block for out-of-range block lookups. -/
def emptyBB : BasicBlock := ⟨"", []⟩

/-- A harness CFG holding one `encode_compact` fragment: the value to
encode is variable 0, the destination buffer is function argument 0, the
write offset is 0.  The width phi variable is temporary 1. -/
def compactHarness : CFG :=
  let st0 : Builder := { vartab := Vartable.new 1, cfg := CFG.new "compact_test" }
  (encode_compact (Expression.Variable U32 0)
    (some (Expression.FunctionArg Ty.DynamicBytes 0))
    (some (Expression.NumberLiteral U32 0)) st0).2.cfg

/-- Run the compact-encoding fragment on the runtime value `n`. -/
def runCompact (n : Nat) : RunResult :=
  runFrom compactHarness ⟨0, 0, 0⟩ 50 0 [(0, n)]

/-- A declared error clause `catch Error(string) e` with bound-variable
position 7 and an empty body. -/
def exClauseString : CatchClause :=
  { param_pos := some 7, param := some Ty.String, stmt := [] }

/-- Builder state at the point `insert_catch_clauses` is called: blocks
`ok` (1), `catch` (2), `finally` (3) already created, error-data variable
5, next fresh id 8. -/
def tryStart : Builder :=
  let st : Builder := { vartab := Vartable.new 8, cfg := CFG.new "try" }
  let (_, st) := st.new_basic_block "ok"
  let (_, st) := st.new_basic_block "catch"
  let (_, st) := st.new_basic_block "finally"
  st

/-- A try/catch with one declared error clause and a catch-all. -/
def exTcOneClause : TryCatchM :=
  { errors := [exClauseString]
    catch_all := some { param_pos := none, param := none, stmt := [] } }

/-- A try/catch with one declared error clause and no catch-all. -/
def exTcNoCatchAll : TryCatchM :=
  { errors := [exClauseString], catch_all := none }

/-- Specification-side description of `abi_decode`'s result list: one
fresh variable per input type, ids consecutive from `n`, in input order
(used to compare the source's loop against the spec's words). -/
def spec_fresh_return_vars (n : Nat) : List Ty → List Expression
  | [] => []
  | t :: ts => Expression.Variable t n :: spec_fresh_return_vars (n + 1) ts

/-- The id list matching `spec_fresh_return_vars`. -/
def spec_fresh_ids (n : Nat) : List Ty → List Nat
  | [] => []
  | _ :: ts => n :: spec_fresh_ids (n + 1) ts

/-! ## Theorems -/

/-- C1: the claim says that in a matched case of a non-payable function,
control routes to the shared assertion-failure block exactly when the
transferred value is greater than 0.  In the generated dispatcher for one
non-payable public function, the matched case block (block 4,
`dispatch_case_0`) does end in the guard branch whose true target is the
assert-failure block (block 1), but the emitted condition is `0 > value`,
which evaluates to false for every transferred value - so a call with
value 1 proceeds towards the body (block 5) and never reaches the
assertion-failure block.  The claim fails on the code. -/
theorem c1_payability_guard_never_fires :
    (dispatchNonpayable.blocks.getD 4 emptyBB).name = "dispatch_case_0" ∧
    (dispatchNonpayable.blocks.getD 4 emptyBB).instrs = [Instr.BranchCond guardCond 1 5] ∧
    (dispatchNonpayable.blocks.getD 1 emptyBB).name = "assert_failure" ∧
    (dispatchNonpayable.blocks.getD 5 emptyBB).name = "no_value" ∧
    (∀ v : Nat, evalExpr ⟨4, v, 0x33333333⟩ [(1, v)] guardCond = some 0) := by
  refine ⟨rfl, rfl, rfl, rfl, ?_⟩
  intro v
  simp [evalExpr, guardCond, Store.lookup]

/-- C2: the claim says a call with transferred value greater than zero is
routed to the receive handler.  In the dispatcher generated for a contract
declaring both fallback (cfg 0) and receive (cfg 1), the fallback-or-
receive block (block 2) branches on `0 > value`, which is false for value
1, so the run with value 1 calls cfg 0 (the fallback) and never the
receive handler.  The claim fails on the code. -/
theorem c2_nonzero_value_calls_fallback_not_receive :
    (dispatchFbRecv.blocks.getD 2 emptyBB).name = "fb_or_recv" ∧
    (dispatchFbRecv.blocks.getD 2 emptyBB).instrs = [Instr.BranchCond guardCond 5 4] ∧
    (dispatchFbRecv.blocks.getD 4 emptyBB).name = "fallback" ∧
    (dispatchFbRecv.blocks.getD 4 emptyBB).instrs = [Instr.Call [] 0 []] ∧
    (dispatchFbRecv.blocks.getD 5 emptyBB).name = "receive" ∧
    (dispatchFbRecv.blocks.getD 5 emptyBB).instrs = [Instr.Call [] 1 []] ∧
    (runFrom dispatchFbRecv ⟨4, 1, 0⟩ 50 2 [(1, 1)]).calls = [0] ∧
    (runFrom dispatchFbRecv ⟨4, 1, 0⟩ 50 2 [(1, 1)]).outcome = Outcome.stuck 4 :=
  ⟨rfl, rfl, rfl, rfl, rfl, rfl, rfl, rfl⟩

/-- C3: the claim says the entry branch routes to fallback/receive exactly
when the input is shorter than the selector width, and otherwise to the
selector-read block.  In the generated dispatcher the entry block (block
0) contains only the two `Set` instructions and no branch at all - a run
from the entry falls off the block - because `build` appends the length
check while the current block is still the assert-failure block (block 1,
after its terminator).  Moreover the condition emitted there is
`selector_length < input_len`, the reverse of the claim: at input length
2 it evaluates to false, which routes to the selector-read block
(`start_dispatch`, block 3) instead of fallback/receive.  The claim fails
on the code. -/
theorem c3_length_check_misplaced_and_reversed :
    (dispatchEmpty.blocks.getD 0 emptyBB).instrs =
      [Instr.Set 0 (Expression.Builtin [Ty.Uint 32] BuiltinKind.ArrayLength
          [Expression.FunctionArg Ty.DynamicBytes 0]),
       Instr.Set 1 (Expression.FunctionArg Ty.DynamicBytes 1)] ∧
    (runFrom dispatchEmpty ⟨2, 0, 0⟩ 50 0 []).outcome = Outcome.stuck 0 ∧
    (dispatchEmpty.blocks.getD 1 emptyBB).name = "assert_failure" ∧
    (dispatchEmpty.blocks.getD 1 emptyBB).instrs =
      [Instr.AssertFailure none, Instr.BranchCond lengthCond 2 3] ∧
    (dispatchEmpty.blocks.getD 2 emptyBB).name = "fb_or_recv" ∧
    (dispatchEmpty.blocks.getD 3 emptyBB).name = "start_dispatch" ∧
    evalExpr ⟨2, 0, 0⟩ [(0, 2)] lengthCond = some 0 :=
  ⟨rfl, rfl, rfl, rfl, rfl, rfl, rfl⟩

/-- C6: the claim says every reachable block of the generated dispatch CFG
ends in exactly one terminator.  In the dispatcher generated for one
non-payable public function, the entry block (block 0, always reachable:
execution starts there) contains no terminator at all - a run from the
entry gets stuck - and the assert-failure block carries a second
instruction after its terminator.  The claim fails on the code. -/
theorem c6_entry_block_has_no_terminator :
    (dispatchNonpayable.blocks.getD 0 emptyBB).instrs.length = 2 ∧
    ((dispatchNonpayable.blocks.getD 0 emptyBB).instrs.all
      (fun i => ! i.is_terminator)) = true ∧
    (runFrom dispatchNonpayable ⟨4, 0, 0x33333333⟩ 50 0 []).outcome = Outcome.stuck 0 ∧
    ((dispatchNonpayable.blocks.getD 1 emptyBB).instrs.getD 0 (Instr.Branch 0)).is_terminator
      = true ∧
    (dispatchNonpayable.blocks.getD 1 emptyBB).instrs.length = 2 :=
  ⟨rfl, rfl, rfl, rfl, rfl⟩

/-- C4: the claim says the compact encoder classifies `n` into the 1-byte
class exactly when `n < 0x40`, the 2-byte class exactly when
`0x40 ≤ n < 0x4000`, the 4-byte class exactly when
`0x4000 ≤ n < 0x40000000`, and an unconditional failure when
`n ≥ 0x40000000`.  Running the emitted decision tree: `0x3f` lands in the
1-byte class as claimed, but `0x40` also lands in the 1-byte class
(width variable 1, payload `0x100`) instead of the 2-byte class,
`0x4000` lands in the 2-byte class (payload `0x10001`) instead of the
4-byte class, and `0x40000000` lands in the 4-byte class and performs a
write (payload `(0x40000000 << 2) mod 2^32 = 2`) instead of failing;
only `0x40000001` reaches the failure block.  All three boundaries are
off by one, so the claim fails on the code. -/
theorem c4_compact_width_classes_off_by_one :
    (compactHarness.blocks.map BasicBlock.name) =
      ["entry", "small", "medium", "medium_or_big", "big", "done", "fail", "prepare"] ∧
    (runCompact 0x3f).outcome = Outcome.stuck 5 ∧
    (runCompact 0x3f).writes = [0xfc] ∧
    (runCompact 0x3f).store.lookup 1 = some 1 ∧
    (runCompact 0x40).outcome = Outcome.stuck 5 ∧
    (runCompact 0x40).writes = [0x100] ∧
    (runCompact 0x40).store.lookup 1 = some 1 ∧
    (runCompact 0x4000).writes = [0x10001] ∧
    (runCompact 0x4000).store.lookup 1 = some 2 ∧
    (runCompact 0x40000000).outcome = Outcome.stuck 5 ∧
    (runCompact 0x40000000).writes = [2] ∧
    (runCompact 0x40000000).store.lookup 1 = some 4 ∧
    (runCompact 0x40000001).outcome = Outcome.assert_fail false ∧
    (runCompact 0x40000001).writes = [] :=
  ⟨rfl, rfl, rfl, rfl, rfl, rfl, rfl, rfl, rfl, rfl, rfl, rfl, rfl, rfl⟩

/-- C5: the claim says the lowering completes for k ≥ 1 declared error
clauses, emitting one selector-test block per clause in source order.  The
source loop re-creates the clause iterator every iteration
(`try_stmt.errors.iter().enumerate().next()`), so it processes the first
clause forever; with one declared clause the second iteration unwraps
`next_clause = None` and the lowering aborts (`panic`) for every fuel
bound of at least 2, and it never returns a completed CFG for any fuel.
The claim fails on the code. -/
theorem c5_clause_lowering_never_completes :
    (∀ f : Nat,
      insert_catch_clauses exTcOneClause 2 3 5 (f + 2) tryStart = LowerResult.panic) ∧
    (∀ f : Nat,
      insert_catch_clauses exTcOneClause 2 3 5 f tryStart = LowerResult.panic ∨
      insert_catch_clauses exTcOneClause 2 3 5 f tryStart = LowerResult.fuel_out) :=
  ⟨fun _ => rfl,
   fun f => match f with
     | 0 => Or.inr rfl
     | 1 => Or.inr rfl
     | _ + 2 => Or.inl rfl⟩

/-- C7: the claim says that with declared error clauses and no catch-all,
the lowered CFG reaches `no_match` and re-raises via an assertion-failure
instruction carrying the original error buffer.  The `no_match` emission
sits after the clause loop, and for one declared clause and no catch-all
the loop aborts on its second iteration (`next_clause.unwrap()` on
`None`), so the lowering never completes and the re-raising
`AssertFailure` is never emitted: for every fuel bound the result is
`panic` (fuel ≥ 2) or fuel exhaustion, never a lowered CFG.  The claim
fails on the code. -/
theorem c7_no_match_reraise_never_emitted :
    (∀ f : Nat,
      insert_catch_clauses exTcNoCatchAll 2 3 5 (f + 2) tryStart = LowerResult.panic) ∧
    (∀ f : Nat,
      insert_catch_clauses exTcNoCatchAll 2 3 5 f tryStart = LowerResult.panic ∨
      insert_catch_clauses exTcNoCatchAll 2 3 5 f tryStart = LowerResult.fuel_out) :=
  ⟨fun _ => rfl,
   fun f => match f with
     | 0 => Or.inr rfl
     | 1 => Or.inr rfl
     | _ + 2 => Or.inl rfl⟩

/-- Membership after the error-clause erase fold of `finally_phi_set`. -/
lemma mem_erase_clause_foldl (cs : List CatchClause) (s : Finset ℕ) (v : ℕ) :
    (v ∈ cs.foldl
        (fun s clause =>
          match clause.param_pos with
          | some pos => s.erase pos
          | none => s) s) ↔
      v ∈ s ∧ ∀ c ∈ cs, c.param_pos ≠ some v := by
  induction cs generalizing s with
  | nil => simp
  | cons c cs ih =>
    simp only [List.foldl_cons, ih, List.mem_cons, forall_eq_or_imp]
    cases h : c.param_pos with
    | none => simp [h]
    | some pos =>
      simp only [h, Finset.mem_erase, Ne, Option.some.injEq]
      constructor
      · rintro ⟨⟨hvp, hv⟩, hrest⟩
        exact ⟨hv, fun he => hvp he.symm, hrest⟩
      · rintro ⟨hv, hne, hrest⟩
        exact ⟨⟨fun he => hne he.symm, hv⟩, hrest⟩

/-- C8: the phi set recorded for the `finally` block is exactly the popped
dirty set minus the bound-parameter positions of the error clauses and of
the catch-all: it never contains a variable bound at a clause parameter
position, and every other dirtied variable is retained.  This confirms the
claim for the pruning step of `try_catch` (lines 87-101). -/
theorem c8_finally_phi_excludes_clause_params :
    ∀ (tc : TryCatchM) (popped : Finset ℕ) (v : ℕ),
      v ∈ finally_phi_set tc popped ↔
        v ∈ popped ∧ (∀ c ∈ tc.errors, c.param_pos ≠ some v) ∧
          ∀ ca, tc.catch_all = some ca → ca.param_pos ≠ some v := by
  intro tc popped v
  unfold finally_phi_set
  rw [mem_erase_clause_foldl]
  cases hca : tc.catch_all with
  | none => simp [hca]
  | some ca =>
    cases hp : ca.param_pos with
    | none => simp [hca, hp]
    | some pos =>
      simp only [hca, hp, Option.some_bind, Finset.mem_erase, Ne, Option.some.injEq]
      constructor
      · rintro ⟨⟨hvp, hv⟩, he⟩
        exact ⟨hv, he, fun ca2 hca2 => hca2 ▸ (by
          simp only [hp, Option.some.injEq]
          exact fun hpv => hvp hpv.symm)⟩
      · rintro ⟨hv, he, hall⟩
        refine ⟨⟨fun hvp => ?_, hv⟩, he⟩
        have := hall ca rfl
        simp only [hp, Option.some.injEq] at this
        exact this hvp.symm

/-- `register_ty` on an already-present descriptor: the list is unchanged
and the returned 1-based index points at a structurally-equal entry. -/
lemma register_ty_mem (types : List AbiTy) (ty : AbiTy) (h : ty ∈ types) :
    (register_ty types ty).2 = types ∧
      (register_ty types ty).2[(register_ty types ty).1 - 1]? = some ty := by
  have hex : ∃ x, x ∈ types ∧ (fun t => decide (t = ty)) x = true := ⟨ty, h, by simp⟩
  have hf := List.findIdx?_eq_some_of_exists hex
  obtain ⟨hlt, hp, -⟩ := List.findIdx?_eq_some_iff_getElem.mp hf
  unfold register_ty
  rw [hf]
  refine ⟨rfl, ?_⟩
  simp only [Nat.add_sub_cancel]
  rw [List.getElem?_eq_getElem hlt]
  simp only [decide_eq_true_eq] at hp
  exact congrArg some hp

/-- Registering a descriptor twice: the second call returns the same index
and leaves the list of the first call unchanged. -/
lemma register_ty_idem (types : List AbiTy) (ty : AbiTy) :
    register_ty (register_ty types ty).2 ty = register_ty types ty := by
  unfold register_ty
  cases hf : types.findIdx? (fun t => t = ty) with
  | some i => simp [hf]
  | none =>
    have hchain : (types ++ [ty]).findIdx? (fun t => decide (t = ty)) =
        some types.length := by
      rw [List.findIdx?_append, hf]
      simp
    simp [hf, hchain, List.length_append]

/-- C9: registering a descriptor that is already present (structurally)
returns the existing entry's index and leaves the list unchanged;
registration is idempotent; the first descriptor registered into an empty
registry receives index 1; and no registration ever returns index 0.
This confirms the claim for `Abi::register_ty`. -/
theorem c9_register_ty_dedup_one_based :
    (∀ (types : List AbiTy) (ty : AbiTy), ty ∈ types →
        (register_ty types ty).2 = types ∧
        (register_ty types ty).2[(register_ty types ty).1 - 1]? = some ty) ∧
    (∀ (types : List AbiTy) (ty : AbiTy),
        register_ty (register_ty types ty).2 ty = register_ty types ty) ∧
    (∀ ty : AbiTy, (register_ty [] ty).1 = 1) ∧
    (∀ (types : List AbiTy) (ty : AbiTy), 1 ≤ (register_ty types ty).1) := by
  refine ⟨register_ty_mem, register_ty_idem, fun ty => rfl, ?_⟩
  intro types ty
  unfold register_ty
  cases hf : types.findIdx? (fun t => t = ty) with
  | some i => simp
  | none => simp [List.length_append]

/-- Witness for C9: the hypothesis of its first conjunct discharged at a
concrete one-entry registry. -/
theorem c9_register_ty_dedup_one_based_witness :
    AbiTy.BuiltinTy "u8" ∈ [AbiTy.BuiltinTy "u8"] ∧
    (register_ty [AbiTy.BuiltinTy "u8"] (AbiTy.BuiltinTy "u8")).2 =
      [AbiTy.BuiltinTy "u8"] ∧
    (register_ty [AbiTy.BuiltinTy "u8"]
        (AbiTy.BuiltinTy "u8")).2[(register_ty [AbiTy.BuiltinTy "u8"]
        (AbiTy.BuiltinTy "u8")).1 - 1]? = some (AbiTy.BuiltinTy "u8") := by
  have hm : AbiTy.BuiltinTy "u8" ∈ [AbiTy.BuiltinTy "u8"] := by simp
  exact ⟨hm, (c9_register_ty_dedup_one_based.1 _ _ hm).1,
    (c9_register_ty_dedup_one_based.1 _ _ hm).2⟩

/-- `spec_fresh_return_vars` yields one expression per input type. -/
lemma spec_fresh_return_vars_length (n : Nat) (ts : List Ty) :
    (spec_fresh_return_vars n ts).length = ts.length := by
  induction ts generalizing n with
  | nil => rfl
  | cons t ts ih => simp [spec_fresh_return_vars, ih]

/-- The allocation loop of `abi_decode`, characterised: consecutive fresh
ids from the current counter, one result variable per type, in order. -/
lemma decode_alloc_foldl (types : List Ty) (st : Builder) (vs : List Nat)
    (es : List Expression) :
    types.foldl decode_alloc_step (st, vs, es) =
      ({ st with vartab := { st.vartab with next_id := st.vartab.next_id + types.length } },
       vs ++ spec_fresh_ids st.vartab.next_id types,
       es ++ spec_fresh_return_vars st.vartab.next_id types) := by
  induction types generalizing st vs es with
  | nil =>
    cases st with
    | mk vt cfg =>
      cases vt with
      | mk nid ds => simp [spec_fresh_ids, spec_fresh_return_vars]
  | cons t ts ih =>
    simp only [List.foldl_cons]
    rw [show decode_alloc_step (st, vs, es) t =
        ({ st with vartab := { st.vartab with next_id := st.vartab.next_id + 1 } },
         vs ++ [st.vartab.next_id],
         es ++ [Expression.Variable t st.vartab.next_id]) from rfl]
    rw [ih]
    simp only [spec_fresh_ids, spec_fresh_return_vars, List.append_assoc,
      List.singleton_append, List.cons_append, List.nil_append, List.length_cons,
      Prod.mk.injEq, Builder.mk.injEq, Vartable.mk.injEq, and_true, true_and]
    omega

/-- C10: `ScaleEncoding::abi_decode` hits its host-side assertion exactly
when the codec was constructed in packed mode; a non-packed codec never
asserts and returns exactly one fresh result variable per input type, with
consecutive fresh ids, in input order, confirming the claim. -/
theorem c10_abi_decode_asserts_iff_packed :
    (∀ (enc : ScaleEncoding) (buffer : Expression) (types : List Ty) (st : Builder)
        (bsz : Option Expression),
        ScaleEncoding.abi_decode enc buffer types st bsz = Except.error () ↔
          enc.packed_encoder = true) ∧
    (∀ (buffer : Expression) (types : List Ty) (st : Builder) (bsz : Option Expression),
        ∃ st2, ScaleEncoding.abi_decode (ScaleEncoding.new false) buffer types st bsz =
            Except.ok (spec_fresh_return_vars st.vartab.next_id types, st2) ∧
          st2.vartab.next_id = st.vartab.next_id + types.length ∧
          (spec_fresh_return_vars st.vartab.next_id types).length = types.length) := by
  constructor
  · intro enc buffer types st bsz
    cases hp : enc.packed_encoder with
    | true => simp [ScaleEncoding.abi_decode, hp]
    | false => simp [ScaleEncoding.abi_decode, hp]
  · intro buffer types st bsz
    refine ⟨({ st with vartab :=
        { st.vartab with next_id := st.vartab.next_id + types.length } } : Builder).add
        (Instr.AbiDecode (spec_fresh_ids st.vartab.next_id types) types buffer),
      ?_, ?_, spec_fresh_return_vars_length _ _⟩
    · simp [ScaleEncoding.abi_decode, ScaleEncoding.new, decode_alloc_foldl]
    · simp [Builder.add, CFG.add]

end Solang
